import Mathlib

/-!
Verification of the timeline-synchronization core of the goethe-video-generator
repository: the audio timeline builder (`scripts/generate_audio.py`), the
master-audio assembler (`scripts/sync_audio_video.py`), and the calibrated
playback driver (`scripts/generate_video_synchronized.py`).

Durations and wall-clock times are modelled as rationals (`ℚ`, seconds);
pydub audio lengths are whole milliseconds (`ℕ`).  Python `int()` truncation
of nonnegative values is `Int.floor ∘ (· * 1000)` composed with `Int.toNat`.
-/

namespace Goethe

/-- Timing/audio configuration, mirroring the per-Teil YAML values read by
`ConfigurableAudioGenerator` (`get_thinking_time`, `get_pause_between`, ...).
Defaults are the `_get_default_config` values. -/
structure TimingConfig where
  thinking_time : ℚ := 5
  pause_between_plays : ℚ := 3
  transition_duration : ℚ := 5/2
  answer_reveal_pause : ℚ := 2
  instructions_buffer : ℚ := 2
  task_start_buffer : ℚ := 2
  text_play_count : ℕ := 2
deriving DecidableEq, Repr

/-- The six step types emitted by `generate_all_audio`. -/
inductive StepType
  | intro
  | instructions
  | transition
  | combined_task
  | answer_reveal
  | outro
deriving DecidableEq, Repr

/-- One entry of `audio_sequence`: the Python `step_data` dict.  Optional
fields model dict keys that are present only for some step types
(`step.get(key, default)` reads them with a default). -/
structure Step where
  type : StepType
  start_time : ℚ := 0
  duration : Option ℚ := none
  total_duration : Option ℚ := none
  buffer_after : Option ℚ := none
  task_start_buffer : Option ℚ := none
  text_duration : Option ℚ := none
  play_count : Option ℕ := none
  pause_between : Option ℚ := none
  thinking_time : Option ℚ := none
  pause_after : Option ℚ := none
  task_number : Option ℕ := none
  id : Option String := none
  transition_text : Option String := none
  file : String := ""
deriving DecidableEq, Repr

/-- `step_data.get('total_duration', step_data.get('duration', 0))` —
the slot width used by `add_to_sequence` and downstream consumers. -/
def stepTotalDuration (s : Step) : ℚ :=
  (s.total_duration.getD (s.duration.getD 0))

/-- Builder state: the `audio_sequence` list, running `total_duration`, and
the `voice_assignments` table (speaker → (voice, engine, gender)). -/
abbrev VoiceTriple := String × String × String

structure BuildState where
  audio_sequence : List Step := []
  total_duration : ℚ := 0
  voice_assignments : List (String × VoiceTriple) := []
deriving DecidableEq, Repr

/-- Overwrite a step's `start_time` (the `step_data['start_time'] = ...`
assignment inside `add_to_sequence`). -/
def withStart (s : Step) (t : ℚ) : Step := { s with start_time := t }

/-- `ConfigurableAudioGenerator.add_to_sequence`: stamp the step with the
current running total as its start time, append it, and advance the total by
the step's slot width. -/
def add_to_sequence (st : BuildState) (s : Step) : BuildState :=
  let s' := withStart s st.total_duration
  { st with
    audio_sequence := st.audio_sequence ++ [s']
    total_duration := st.total_duration + stepTotalDuration s' }

/-- Step built by `handle_intro_audio` (duration = measured clip length). -/
def mkIntroStep (d : ℚ) : Step :=
  { type := .intro, duration := some d, file := "intro.mp3" }

/-- Step built by `handle_instructions_audio`: measured length plus the
configurable trailing buffer. -/
def mkInstructionsStep (cfg : TimingConfig) (d : ℚ) : Step :=
  { type := .instructions
    duration := some d
    total_duration := some (d + cfg.instructions_buffer)
    buffer_after := some cfg.instructions_buffer
    file := "instructions.mp3" }

/-- Step built by `handle_transition_audio`: total duration is the measured
length clamped up to the configured minimum.  Note the step records no `id`
key (the Python dict has none), only the file path. -/
def mkTransitionStep (cfg : TimingConfig) (sectionId txt : String) (d : ℚ) : Step :=
  { type := .transition
    duration := some d
    total_duration := some (max d cfg.transition_duration)
    transition_text := some txt
    file := "transition_" ++ sectionId ++ ".mp3" }

/-- Step built by `handle_combined_task_audio`: the total is
`task_start_buffer + text_duration * play_count + pause_between + thinking_time`
(the inter-repeat pause is added exactly once, not per repeat). -/
def mkCombinedTaskStep (cfg : TimingConfig) (n : ℕ) (d : ℚ) : Step :=
  { type := .combined_task
    task_number := some n
    task_start_buffer := some cfg.task_start_buffer
    text_duration := some d
    play_count := some cfg.text_play_count
    pause_between := some cfg.pause_between_plays
    thinking_time := some cfg.thinking_time
    total_duration := some (cfg.task_start_buffer + d * (cfg.text_play_count : ℚ) +
      cfg.pause_between_plays + cfg.thinking_time)
    file := "task_" ++ toString n ++ ".mp3" }

/-- Step built by `handle_answer_reveal_audio`: measured length plus the
configurable answer-reveal pause. -/
def mkAnswerRevealStep (cfg : TimingConfig) (n : ℕ) (d : ℚ) : Step :=
  { type := .answer_reveal
    task_number := some n
    duration := some d
    pause_after := some cfg.answer_reveal_pause
    total_duration := some (d + cfg.answer_reveal_pause)
    file := "answer_" ++ toString n ++ ".mp3" }

/-- Step built by `handle_outro_audio`. -/
def mkOutroStep (d : ℚ) : Step :=
  { type := .outro, duration := some d, file := "outro.mp3" }

/-! ### Voice assignment (`assign_voice_for_speaker`) -/

/-- The `gender_voice_pools` table set in `__init__` (valid keys are
`"female"` and `"male"`; other keys never reach the table because
`detect_speaker_gender` only returns these two). -/
def gender_voice_pools (g : String) : List String :=
  if g = "female" then ["Vicki", "Marlene"] else ["Daniel", "Hans"]

/-- The `gender_engine_preferences` table (same list for both genders). -/
def gender_engine_preferences (_g : String) : List String :=
  ["generative", "standard"]

/-- Ordered-dict lookup of a speaker in `voice_assignments`. -/
def lookupAssignment : List (String × VoiceTriple) → String → Option VoiceTriple
  | [], _ => none
  | (k, a) :: rest, s => if k = s then some a else lookupAssignment rest s

/-- `ConfigurableAudioGenerator.assign_voice_for_speaker`: reuse a previous
assignment if the speaker is known; otherwise pick the first pool voice not
yet used for this gender (engine `generative` only for the pool's first
voice), and if all pool voices are used, round-robin by the count of
assignments of this gender modulo the pool size. -/
def assign_voice_for_speaker (assignments : List (String × VoiceTriple))
    (speaker g : String) : List (String × VoiceTriple) × VoiceTriple :=
  match lookupAssignment assignments speaker with
  | some a => (assignments, a)
  | none =>
    let available := gender_voice_pools g
    let prefs := gender_engine_preferences g
    let used := (assignments.filter (fun p => p.2.2.2 = g)).map (fun p => p.2.1)
    match available.find? (fun v => !(used.contains v)) with
    | some v =>
      let eng := if v = available.getD 0 "" then prefs.getD 0 "" else prefs.getD 1 ""
      (assignments ++ [(speaker, (v, eng, g))], (v, eng, g))
    | none =>
      let idx := (assignments.filter (fun p => p.2.2.2 = g)).length % available.length
      let v := available.getD idx ""
      let eng := if v = available.getD 0 "" then prefs.getD 0 "" else prefs.getD 1 ""
      (assignments ++ [(speaker, (v, eng, g))], (v, eng, g))

/-! ### Full timeline construction (`generate_all_audio`) -/

/-- One section of the production JSON together with the measured duration of
the clip synthesized for it (`get_audio_duration` probes the written mp3; the
measured value is an input here, as in the spec's mocked-duration tests).
For combined tasks, the optional speaker is (speaker name, detected gender) —
`detect_speaker_gender` is a pure function of the section, so precomposing it
does not affect determinism. -/
inductive SectionData
  | intro (measured : ℚ)
  | instructions (measured : ℚ)
  | transition (sectionId txt : String) (measured : ℚ)
  | combined_task (task_number : ℕ) (speaker : Option (String × String)) (measured : ℚ)
  | answer_reveal (task_number : ℕ) (measured : ℚ)
  | outro (measured : ℚ)
  | unknown
deriving DecidableEq, Repr

/-- Dispatch of one section in the `generate_all_audio` loop to its
`handle_*_audio` method; unknown section types are skipped. -/
def handle_section (cfg : TimingConfig) (st : BuildState) : SectionData → BuildState
  | .intro d => add_to_sequence st (mkIntroStep d)
  | .instructions d => add_to_sequence st (mkInstructionsStep cfg d)
  | .transition i t d => add_to_sequence st (mkTransitionStep cfg i t d)
  | .combined_task n spk d =>
    match spk with
    | some (name, g) =>
      let va := (assign_voice_for_speaker st.voice_assignments name g).1
      add_to_sequence { st with voice_assignments := va } (mkCombinedTaskStep cfg n d)
    | none => add_to_sequence st (mkCombinedTaskStep cfg n d)
  | .answer_reveal n d => add_to_sequence st (mkAnswerRevealStep cfg n d)
  | .outro d => add_to_sequence st (mkOutroStep d)
  | .unknown => st

/-- `generate_all_audio`: resets `audio_sequence`, `total_duration`, and
`voice_assignments` (whatever the prior generator state was) and processes
the sections in order. -/
def generate_all_audio (cfg : TimingConfig) (secs : List SectionData)
    (_prior : BuildState) : BuildState :=
  secs.foldl (handle_section cfg) {}

/-- File name the generator writes for a section (the `save_audio` /
`shutil.copy2` target inside each handler), if any. -/
def writtenFile : SectionData → Option String
  | .intro _ => some "intro.mp3"
  | .instructions _ => some "instructions.mp3"
  | .transition i _ _ => some ("transition_" ++ i ++ ".mp3")
  | .combined_task n _ _ => some ("task_" ++ toString n ++ ".mp3")
  | .answer_reveal n _ => some ("answer_" ++ toString n ++ ".mp3")
  | .outro _ => some "outro.mp3"
  | .unknown => none

/-! ### TTS fallback ladder (`generate_speech` / `get_fallback_voice`) -/

/-- `get_fallback_voice`: the hardcoded fallback map with default
`"Marlene"`. -/
def get_fallback_voice (v : String) : String :=
  if v = "Vicki" then "Marlene"
  else if v = "Daniel" then "Hans"
  else if v = "Marlene" then "Marlene"
  else if v = "Hans" then "Hans"
  else "Marlene"

/-- Termination measure for the standard-engine fallback chain. -/
def voiceRank (v : String) : ℕ :=
  if v = "Marlene" then 0 else if v = "Hans" then 1 else 2

/-- `generate_speech(text, v, 'standard')`, with the provider call abstracted
as `ok voice engine` (true = synthesis succeeds).  Returns the ordered list
of `synthesize_speech` attempts and whether a result was produced (false =
the original provider exception propagates out of the ladder).  With engine
`'standard'` the code attempts once, then retries the fallback voice when it
differs, then the final `Marlene`/`standard` fallback, then re-raises. -/
def generate_speech_std (ok : String → String → Bool) (v : String) :
    List (String × String) × Bool :=
  if ok v "standard" then ([(v, "standard")], true)
  else if h : get_fallback_voice v ≠ v then
    let d := generate_speech_std ok (get_fallback_voice v)
    ((v, "standard") :: d.1, d.2)
  else if v ≠ "Marlene" then
    let f := generate_speech_std ok "Marlene"
    ((v, "standard") :: f.1, f.2)
  else ([(v, "standard")], false)
termination_by voiceRank v
decreasing_by
  · unfold voiceRank get_fallback_voice
    unfold get_fallback_voice at h
    split_ifs at * <;> simp_all
  · unfold voiceRank
    split_ifs <;> simp_all

/-- `generate_speech(text, v, e)` for an arbitrary starting engine: for the
`'generative'` engine the code attempts once, then tries the same voice at
`'standard'` (a full ladder), and if that whole ladder raised, tries the
fallback voice at `'standard'` (another full ladder); for any other engine a
failed attempt goes straight to the final `Marlene`/`standard` fallback. -/
def generate_speech (ok : String → String → Bool) (v e : String) :
    List (String × String) × Bool :=
  if e = "standard" then generate_speech_std ok v
  else if ok v e then ([(v, e)], true)
  else if e = "generative" then
    let b := generate_speech_std ok v
    if b.2 then ((v, e) :: b.1, true)
    else
      let c := generate_speech_std ok (get_fallback_voice v)
      ((v, e) :: (b.1 ++ c.1), c.2)
  else
    let f := generate_speech_std ok "Marlene"
    ((v, e) :: f.1, f.2)

/-! ### Master-audio assembly (`create_master_audio_using_sequence_timing`) -/

/-- Python `int(x * 1000)` for the nonnegative silence/pause durations the
assembler converts to milliseconds (truncation = floor on nonnegatives). -/
def msTrunc (x : ℚ) : ℕ := (Int.floor (x * 1000)).toNat

/-- The audio file path the assembler derives for a step (the
`if step_type == ...` chain); transitions use `step.get('id', 'unknown')`. -/
def resolveAudioFile (s : Step) : String :=
  match s.type with
  | .intro => "intro.mp3"
  | .instructions => "instructions.mp3"
  | .transition => "transition_" ++ (s.id.getD "unknown") ++ ".mp3"
  | .combined_task => "task_" ++ toString (s.task_number.getD 1) ++ ".mp3"
  | .answer_reveal => "answer_" ++ toString (s.task_number.getD 1) ++ ".mp3"
  | .outro => "outro.mp3"

/-- Assembly cursor state: `len(master_audio)` in whole milliseconds (pydub
segment length) and the `current_position` float in seconds. -/
structure AsmState where
  master_ms : ℕ := 0
  cursor : ℚ := 0
deriving DecidableEq, Repr

/-- Silence padding up to the step's exact `start_time`
(`if step_start > current_position`). -/
def padToStart (st : AsmState) (s : Step) : AsmState :=
  if st.cursor < s.start_time then
    { master_ms := st.master_ms + msTrunc (s.start_time - st.cursor)
      cursor := s.start_time }
  else st

/-- The task-start-buffer silence inserted while resolving a combined task's
file path — before the file-existence check, so it is added even when the
task's audio file is missing. -/
def addBufferSilence (st : AsmState) (s : Step) : AsmState :=
  if s.type = .combined_task then
    let b := s.task_start_buffer.getD 0
    if 0 < b then
      { master_ms := st.master_ms + msTrunc b, cursor := st.cursor + b }
    else st
  else st

/-- Appending the step's audio content once its file loaded with measured
length `m` milliseconds: combined tasks are expanded (twice + pause +
thinking) only when `play_count == 2`, otherwise played once; instructions
and answer reveals get their trailing buffer/pause silence. -/
def appendStepAudio (st : AsmState) (s : Step) (m : ℕ) : AsmState :=
  match s.type with
  | .combined_task =>
    let pc := s.play_count.getD 2
    let pause := s.pause_between.getD 3
    let think := s.thinking_time.getD 5
    if pc = 2 then
      { master_ms := st.master_ms + m + msTrunc pause + m + msTrunc think
        cursor := st.cursor + (m : ℚ) / 1000 * 2 + pause + think }
    else
      { master_ms := st.master_ms + m, cursor := st.cursor + (m : ℚ) / 1000 }
  | .instructions =>
    let st1 : AsmState :=
      { master_ms := st.master_ms + m, cursor := st.cursor + (m : ℚ) / 1000 }
    let b := s.buffer_after.getD 0
    if 0 < b then
      { master_ms := st1.master_ms + msTrunc b, cursor := st1.cursor + b }
    else st1
  | .answer_reveal =>
    let st1 : AsmState :=
      { master_ms := st.master_ms + m, cursor := st.cursor + (m : ℚ) / 1000 }
    let p := s.pause_after.getD 0
    if 0 < p then
      { master_ms := st1.master_ms + msTrunc p, cursor := st1.cursor + p }
    else st1
  | _ => { master_ms := st.master_ms + m, cursor := st.cursor + (m : ℚ) / 1000 }

/-- Processing of one sequence step by the assembler loop.  `probe` models
the filesystem: `probe name = some m` iff the audio file exists and loads
with length `m` milliseconds; a missing file is skipped (warning printed,
`continue`) with nothing appended. -/
def assembleStep (probe : String → Option ℕ) (st : AsmState) (s : Step) : AsmState :=
  let st1 := addBufferSilence (padToStart st s) s
  match probe (resolveAudioFile s) with
  | none => st1
  | some m => appendStepAudio st1 s m

/-- `create_master_audio_using_sequence_timing`'s assembly loop over the
whole sequence, starting from empty silence. -/
def create_master_audio (probe : String → Option ℕ) (seq : List Step) : AsmState :=
  seq.foldl (assembleStep probe) {}

/-- `len(master_audio) / 1000.0` — the actual assembled duration returned. -/
def master_seconds (probe : String → Option ℕ) (seq : List Step) : ℚ :=
  ((create_master_audio probe seq).master_ms : ℚ) / 1000

/-- Return value of `create_master_audio_using_sequence_timing`: the actual
assembled duration, and whether the >0.5s timing-error warning was logged
(log only — control flow is unaffected). -/
def create_master_result (probe : String → Option ℕ) (expected : ℚ)
    (seq : List Step) : ℚ × Bool :=
  let actual := master_seconds probe seq
  (actual, decide ((1 : ℚ)/2 < |actual - expected|))

/-- Modelled from the spec: the opaque encode operation
(`combine_audio_video_with_precise_timing`'s ffmpeg invocation, external to
the repository) — given the visual track and a target duration passed via
`-t`, the output is truncated/padded to exactly the target duration. -/
def encode (_videoDuration target : ℚ) : ℚ := target

/-- The tail of `sync_audio_video`: assemble the master track, then invoke
the mux with the *actual* assembled duration as target.  Returns (assembled
duration, final output duration, whether the mismatch warning was logged). -/
def sync_audio_video_run (probe : String → Option ℕ) (seq : List Step)
    (expected videoDuration : ℚ) : ℚ × ℚ × Bool :=
  let r := create_master_result probe expected seq
  (r.1, encode videoDuration r.1, r.2)

/-! ### Calibrated playback driver (`generate_video_synchronized.py`) -/

/-- `self.sync_tolerance = 0.02`. -/
def sync_tolerance : ℚ := 1/50

/-- `compensated_target = target_time - self.browser_lag_baseline -
self.cumulative_drift` in `wait_until_calibrated_time`. -/
def compensated_target (lag drift target : ℚ) : ℚ := target - lag - drift

/-- `track_timing_drift`'s cumulative-drift update: the first measurement is
taken as-is, later ones are folded in with weight 0.3. -/
def update_drift (first : Bool) (drift err : ℚ) : ℚ :=
  if first then err else (7/10) * drift + (3/10) * err

/-- One possible real-time execution of `execute_calibrated_sequence`'s step
loop.  `DriverRun lag clock drift first steps ts` holds when `ts` is a
possible list of renderer-invocation times for `steps`, starting at wall
clock `clock` with cumulative drift `drift` (`first` = no timing measurement
recorded yet).  `wait_until_calibrated_time` returns at any time that is (a)
not before the current clock and (b) not before the compensated target minus
the sync tolerance (the loop's break condition); after the invocation the
drift is updated from the measured error and the loop sleeps 5ms. -/
inductive DriverRun (lag : ℚ) : ℚ → ℚ → Bool → List Step → List ℚ → Prop where
  | nil : ∀ clock drift first, DriverRun lag clock drift first [] []
  | cons : ∀ clock drift first (s : Step) rest t ts,
      clock ≤ t →
      compensated_target lag drift s.start_time - sync_tolerance ≤ t →
      DriverRun lag (t + 1/200) (update_drift first drift (t - s.start_time)) false rest ts →
      DriverRun lag clock drift first (s :: rest) (t :: ts)

/-! ### Post-session duration validation (`validate_recording_timing`,
`apply_speed_correction`) -/

/-- `validate_recording_timing(video, expected, tolerance)`: probes the
recorded track (`measured = none` models an unreadable file) and returns
`(is_valid, actual_duration, speed_correction_factor)` with
`is_valid = |actual - expected| <= tolerance` and
`speed = expected / actual` when `actual > 0`. -/
def validate_recording_timing (measured : Option ℚ) (expected tolerance : ℚ) :
    Bool × Option ℚ × Option ℚ :=
  match measured with
  | none => (false, none, none)
  | some actual =>
    (decide (|actual - expected| ≤ tolerance), some actual,
      if 0 < actual then some (expected / actual) else none)

/-- `apply_speed_correction`: re-times the silent visual track with
`setpts = (1/speed_factor) * PTS` and drops audio (`-an`), so the output
duration is the input duration scaled by `1/speed_factor`.  The Bool records
that the result is video-only. -/
def apply_speed_correction (dur factor : ℚ) : ℚ × Bool :=
  (dur * (1 / factor), true)

/-- The post-recording check in `record_calibrated_video`: validate with
tolerance 0.5 and, only when invalid *and* the factor is truthy (a Python
float is falsy when it is 0.0 or None), apply the speed correction.  Returns
(correction applied?, resulting visual-track duration, video-only?). -/
def post_session_correction (measured : Option ℚ) (expected : ℚ) :
    Bool × Option ℚ × Bool :=
  let r := validate_recording_timing measured expected (1/2)
  match r.2.2 with
  | some f =>
    if !r.1 ∧ f ≠ 0 then
      (true, some (apply_speed_correction ((r.2.1).getD 0) f).1, true)
    else (false, r.2.1, false)
  | none => (false, r.2.1, false)

/-! ## Timeline construction invariants -/

/-- Adjacency relation of the no-gap/no-overlap invariant. -/
def stepFollows (a b : Step) : Prop :=
  b.start_time = a.start_time + stepTotalDuration a

/-- Invariant maintained by `add_to_sequence` over the builder state. -/
structure TimelineInv (seq : List Step) (total : ℚ) : Prop where
  chain : List.Chain' stepFollows seq
  head0 : ∀ x ∈ seq.head?, x.start_time = 0
  total_eq : total = (seq.map stepTotalDuration).sum
  last_eq : ∀ x ∈ seq.getLast?, x.start_time + stepTotalDuration x = total
  empty_total : seq = [] → total = 0

/-- A duration that is a whole, nonnegative number of milliseconds — the
form every pydub-measured length has, and the form of all default config
values (pydub silence insertion truncates to whole ms, so ms-aligned inputs
assemble without rounding loss). -/
def isMsQ (x : ℚ) : Prop := ∃ n : ℕ, x = (n : ℚ) / 1000

/-- A step assembles to exactly its slot width: whenever the assembly cursor
sits at the step's start time, processing the step appends exactly
`1000 × slot width` milliseconds and advances the cursor by the slot width. -/
def stepContributes (probe : String → Option ℕ) (s : Step) : Prop :=
  ∀ x : AsmState, x.cursor = s.start_time →
    ((assembleStep probe x s).master_ms : ℚ) =
      (x.master_ms : ℚ) + 1000 * stepTotalDuration s ∧
    (assembleStep probe x s).cursor = x.cursor + stepTotalDuration s

/-- Per-section hypothesis of the assembly-fidelity claim: the audio file the
assembler resolves for the section's step exists and probes to exactly the
duration measured at build time (for transitions that file is
`transition_unknown.mp3`, and the measured length must reach the configured
minimum for the slot to equal the clip length). -/
def sectionProbeOK (cfg : TimingConfig) (probe : String → Option ℕ) :
    SectionData → Prop
  | .intro d => ∃ m : ℕ, probe "intro.mp3" = some m ∧ (m : ℚ) = 1000 * d
  | .instructions d =>
    ∃ m : ℕ, probe "instructions.mp3" = some m ∧ (m : ℚ) = 1000 * d
  | .transition _ _ d =>
    (∃ m : ℕ, probe "transition_unknown.mp3" = some m ∧ (m : ℚ) = 1000 * d) ∧
      cfg.transition_duration ≤ d
  | .combined_task n _ d =>
    ∃ m : ℕ, probe ("task_" ++ toString n ++ ".mp3") = some m ∧ (m : ℚ) = 1000 * d
  | .answer_reveal n d =>
    ∃ m : ℕ, probe ("answer_" ++ toString n ++ ".mp3") = some m ∧ (m : ℚ) = 1000 * d
  | .outro d => ∃ m : ℕ, probe "outro.mp3" = some m ∧ (m : ℚ) = 1000 * d
  | .unknown => True

/-- The (pre-start-stamp) step a section contributes to the sequence, if
any. -/
def sectionStep (cfg : TimingConfig) : SectionData → Option Step
  | .intro d => some (mkIntroStep d)
  | .instructions d => some (mkInstructionsStep cfg d)
  | .transition i t d => some (mkTransitionStep cfg i t d)
  | .combined_task n _ d => some (mkCombinedTaskStep cfg n d)
  | .answer_reveal n d => some (mkAnswerRevealStep cfg n d)
  | .outro d => some (mkOutroStep d)
  | .unknown => none

/-- Concrete six-section content fixture used to evaluate the model. -/
def sampleSections : List SectionData :=
  [.intro 3, .instructions 4, .transition "t1" "Weiter" 3,
   .combined_task 1 none 4, .answer_reveal 1 2, .outro 3]

/-- Filesystem fixture matching `sampleSections`: every resolved file exists
with exactly the measured duration (the transition clip stored under the
`transition_unknown.mp3` name the assembler looks up). -/
def sampleProbe : String → Option ℕ := fun f =>
  if f = "intro.mp3" then some 3000
  else if f = "instructions.mp3" then some 4000
  else if f = "transition_unknown.mp3" then some 3000
  else if f = "task_1.mp3" then some 4000
  else if f = "answer_1.mp3" then some 2000
  else if f = "outro.mp3" then some 3000
  else none

/-- Single-section fixture with repeat count 1 (all other timing values at
their defaults). -/
def oneTaskConfig : TimingConfig := { text_play_count := 1 }

/-- Filesystem fixture for the single 3s narration task. -/
def oneTaskProbe : String → Option ℕ := fun f =>
  if f = "task_1.mp3" then some 3000 else none

theorem stepTotalDuration_withStart (s : Step) (t : ℚ) :
    stepTotalDuration (withStart s t) = stepTotalDuration s := rfl

theorem start_withStart (s : Step) (t : ℚ) : (withStart s t).start_time = t := rfl

theorem add_to_sequence_inv {st : BuildState} {s : Step}
    (h : TimelineInv st.audio_sequence st.total_duration) :
    TimelineInv (add_to_sequence st s).audio_sequence
      (add_to_sequence st s).total_duration := by
  obtain ⟨hc, hh, ht, hl, he⟩ := h
  constructor
  · rw [add_to_sequence, List.chain'_append]
    refine ⟨hc, List.chain'_singleton _, ?_⟩
    intro x hx y hy
    simp only [List.head?_cons, Option.mem_def, Option.some.injEq] at hy
    subst hy
    exact (hl x hx).symm
  · intro x hx
    rcases hseq : st.audio_sequence with _ | ⟨a, l⟩
    · rw [add_to_sequence] at hx
      simp only [hseq, List.nil_append, List.head?_cons, Option.mem_def,
        Option.some.injEq] at hx
      subst hx
      rw [start_withStart]
      exact he hseq
    · rw [add_to_sequence] at hx
      simp only [hseq, List.cons_append, List.head?_cons, Option.mem_def,
        Option.some.injEq] at hx
      subst hx
      exact hh a (by rw [hseq]; rfl)
  · rw [add_to_sequence]
    simp only [List.map_append, List.sum_append, List.map_cons, List.map_nil,
      List.sum_cons, List.sum_nil, add_zero, stepTotalDuration_withStart]
    rw [ht]
  · intro x hx
    rw [add_to_sequence] at hx
    rw [List.getLast?_concat] at hx
    simp only [Option.mem_def, Option.some.injEq] at hx
    subst hx
    rw [add_to_sequence, start_withStart, stepTotalDuration_withStart]
  · intro hx
    rw [add_to_sequence] at hx
    simp at hx

theorem handle_section_inv {cfg : TimingConfig} {st : BuildState}
    (sec : SectionData)
    (h : TimelineInv st.audio_sequence st.total_duration) :
    TimelineInv (handle_section cfg st sec).audio_sequence
      (handle_section cfg st sec).total_duration := by
  cases sec with
  | intro d => exact add_to_sequence_inv h
  | instructions d => exact add_to_sequence_inv h
  | transition i t d => exact add_to_sequence_inv h
  | combined_task n spk d =>
    cases spk with
    | some p =>
      cases p with
      | mk name g => exact add_to_sequence_inv h
    | none => exact add_to_sequence_inv h
  | answer_reveal n d => exact add_to_sequence_inv h
  | outro d => exact add_to_sequence_inv h
  | unknown => exact h

theorem foldl_handle_inv (cfg : TimingConfig) (secs : List SectionData)
    (st : BuildState) (h : TimelineInv st.audio_sequence st.total_duration) :
    TimelineInv (secs.foldl (handle_section cfg) st).audio_sequence
      (secs.foldl (handle_section cfg) st).total_duration := by
  induction secs generalizing st with
  | nil => exact h
  | cons sec rest ih => exact ih _ (handle_section_inv sec h)

theorem timelineInv_empty : TimelineInv (BuildState.audio_sequence {}) (BuildState.total_duration {}) := by
  constructor <;> simp [List.Chain']

theorem generate_all_audio_inv (cfg : TimingConfig) (secs : List SectionData)
    (prior : BuildState) :
    TimelineInv (generate_all_audio cfg secs prior).audio_sequence
      (generate_all_audio cfg secs prior).total_duration :=
  foldl_handle_inv cfg secs {} timelineInv_empty

/-- C1: for every timeline built by the audio generator, each adjacent pair
of steps satisfies `next.start_time = prev.start_time + prev slot width`
(slot width = `total_duration` falling back to `duration`, then 0) — no gaps
and no overlaps — and the timeline's `total_duration` is the sum of all
steps' slot widths. -/
theorem c1_no_gap_no_overlap (cfg : TimingConfig) (secs : List SectionData)
    (prior : BuildState) :
    List.Chain' stepFollows (generate_all_audio cfg secs prior).audio_sequence ∧
    (generate_all_audio cfg secs prior).total_duration =
      ((generate_all_audio cfg secs prior).audio_sequence.map stepTotalDuration).sum :=
  ⟨(generate_all_audio_inv cfg secs prior).chain,
   (generate_all_audio_inv cfg secs prior).total_eq⟩

/-- C6: timeline construction is deterministic — `generate_all_audio` resets
the generator state, so two runs from arbitrary prior states with identical
sections, timing configuration and measured clip durations produce identical
step `start_time`/`total_duration` values and the same overall total. -/
theorem c6_deterministic_build (cfg : TimingConfig) (secs : List SectionData)
    (prior₁ prior₂ : BuildState) :
    ((generate_all_audio cfg secs prior₁).audio_sequence.map
        (fun s => (s.start_time, stepTotalDuration s)) =
      (generate_all_audio cfg secs prior₂).audio_sequence.map
        (fun s => (s.start_time, stepTotalDuration s))) ∧
    (generate_all_audio cfg secs prior₁).total_duration =
      (generate_all_audio cfg secs prior₂).total_duration ∧
    generate_all_audio cfg secs prior₁ = generate_all_audio cfg secs prior₂ :=
  ⟨rfl, rfl, rfl⟩

/-- C2 (counterexample): with repeat count 1 the code still adds one full
inter-repeat pause, so the built narration-task step's `total_duration` (14s
here: 2 buffer + 4×1 + 3 pause + 5 thinking) differs from the claimed
formula `buffer + len×count + pause×(count−1) + thinking` (11s). -/
theorem c2_pause_once_counterexample :
    stepTotalDuration (mkCombinedTaskStep { text_play_count := 1 } 1 4) ≠
      TimingConfig.task_start_buffer { text_play_count := 1 } +
        4 * ((TimingConfig.text_play_count { text_play_count := 1 } : ℚ)) +
        TimingConfig.pause_between_plays { text_play_count := 1 } *
          ((TimingConfig.text_play_count { text_play_count := 1 } : ℚ) - 1) +
        TimingConfig.thinking_time { text_play_count := 1 } := by
  norm_num [stepTotalDuration, mkCombinedTaskStep]

/-- C2 (amended): a narration-task step's `total_duration` equals
`task_start_buffer + measured length × repeat count + inter-repeat pause +
thinking time` — the pause is added exactly once for every repeat count, so
with repeat count 1 the pause is still included. -/
theorem c2_task_duration_amended (cfg : TimingConfig) (n : ℕ) (d : ℚ) :
    stepTotalDuration (mkCombinedTaskStep cfg n d) =
      cfg.task_start_buffer + d * (cfg.text_play_count : ℚ) +
        cfg.pause_between_plays + cfg.thinking_time := rfl

/-! ## Voice assignment (C9) -/

theorem lookupAssignment_append_some {A : List (String × VoiceTriple)}
    {s : String} {a : VoiceTriple} (h : lookupAssignment A s = some a)
    (B : List (String × VoiceTriple)) :
    lookupAssignment (A ++ B) s = some a := by
  induction A with
  | nil => simp [lookupAssignment] at h
  | cons p rest ih =>
    rw [List.cons_append, lookupAssignment]
    rw [lookupAssignment] at h
    by_cases hp : p.1 = s
    · simpa [hp] using h
    · rw [if_neg hp] at h ⊢
      exact ih h

theorem assign_preserves_lookup {A : List (String × VoiceTriple)}
    {s : String} {a : VoiceTriple} (h : lookupAssignment A s = some a)
    (s' g' : String) :
    lookupAssignment (assign_voice_for_speaker A s' g').1 s = some a := by
  rw [assign_voice_for_speaker]
  cases hl : lookupAssignment A s' with
  | some b => exact h
  | none =>
    dsimp only
    split
    · exact lookupAssignment_append_some h _
    · exact lookupAssignment_append_some h _

theorem handle_preserves_lookup {cfg : TimingConfig} {st : BuildState}
    {s : String} {a : VoiceTriple}
    (h : lookupAssignment st.voice_assignments s = some a) (sec : SectionData) :
    lookupAssignment (handle_section cfg st sec).voice_assignments s = some a := by
  cases sec with
  | intro d => exact h
  | instructions d => exact h
  | transition i t d => exact h
  | combined_task n spk d =>
    cases spk with
    | some p =>
      cases p with
      | mk name g => exact assign_preserves_lookup h name g
    | none => exact h
  | answer_reveal n d => exact h
  | outro d => exact h
  | unknown => exact h

theorem foldl_preserves_lookup (cfg : TimingConfig) (secs : List SectionData)
    (st : BuildState) {s : String} {a : VoiceTriple}
    (h : lookupAssignment st.voice_assignments s = some a) :
    lookupAssignment (secs.foldl (handle_section cfg) st).voice_assignments s = some a := by
  induction secs generalizing st with
  | nil => exact h
  | cons sec rest ih => exact ih _ (handle_preserves_lookup h sec)

/-- C9: for three distinct same-gender speakers over the two-voice pool, the
first two get the pool's two distinct voices (first with the generative
engine, second with standard), the third gets a pool voice again by
round-robin (count mod pool size = 0, hence the first pool voice, not an
arbitrary default); and once a speaker is assigned, any later request
returns the stored triple unchanged — assignments persist through the rest
of the run. -/
theorem c9_voice_assignment (g s₁ s₂ s₃ : String)
    (hg : g = "female" ∨ g = "male")
    (h12 : s₁ ≠ s₂) (h13 : s₁ ≠ s₃) (h23 : s₂ ≠ s₃) :
    ((assign_voice_for_speaker [] s₁ g).2.1 = (gender_voice_pools g).getD 0 "" ∧
     (assign_voice_for_speaker (assign_voice_for_speaker [] s₁ g).1 s₂ g).2.1 =
       (gender_voice_pools g).getD 1 "" ∧
     (assign_voice_for_speaker [] s₁ g).2.1 ≠
       (assign_voice_for_speaker (assign_voice_for_speaker [] s₁ g).1 s₂ g).2.1 ∧
     (assign_voice_for_speaker
         (assign_voice_for_speaker (assign_voice_for_speaker [] s₁ g).1 s₂ g).1
         s₃ g).2.1 = (gender_voice_pools g).getD 0 "" ∧
     (assign_voice_for_speaker
         (assign_voice_for_speaker (assign_voice_for_speaker [] s₁ g).1 s₂ g).1
         s₃ g).2.1 ∈ gender_voice_pools g) ∧
    (∀ (A : List (String × VoiceTriple)) (s gx : String) (a : VoiceTriple),
       lookupAssignment A s = some a → assign_voice_for_speaker A s gx = (A, a)) ∧
    (∀ (cfg : TimingConfig) (secs : List SectionData) (st : BuildState)
       (s : String) (a : VoiceTriple),
       lookupAssignment st.voice_assignments s = some a →
       lookupAssignment (secs.foldl (handle_section cfg) st).voice_assignments s
         = some a) := by
  refine ⟨?_, ?_, ?_⟩
  · rcases hg with hg | hg <;> subst hg <;>
      simp [assign_voice_for_speaker, lookupAssignment, gender_voice_pools,
        gender_engine_preferences, List.find?, h12, h13, h23,
        Ne.symm h12, Ne.symm h13, Ne.symm h23]
  · intro A s gx a h
    rw [assign_voice_for_speaker, h]
  · intro cfg secs st s a h
    exact foldl_preserves_lookup cfg secs st h

/-- C9 witness: three concrete female speakers over the ["Vicki","Marlene"]
pool, discharging the distinctness hypotheses. -/
theorem c9_voice_assignment_witness :
    (("A" : String) ≠ "B" ∧ ("A" : String) ≠ "C" ∧ ("B" : String) ≠ "C") ∧
    ((assign_voice_for_speaker [] "A" "female").2.1 =
        (gender_voice_pools "female").getD 0 "" ∧
     (assign_voice_for_speaker (assign_voice_for_speaker [] "A" "female").1
         "B" "female").2.1 = (gender_voice_pools "female").getD 1 "" ∧
     (assign_voice_for_speaker [] "A" "female").2.1 ≠
       (assign_voice_for_speaker (assign_voice_for_speaker [] "A" "female").1
         "B" "female").2.1 ∧
     (assign_voice_for_speaker
         (assign_voice_for_speaker (assign_voice_for_speaker [] "A" "female").1
           "B" "female").1 "C" "female").2.1 =
       (gender_voice_pools "female").getD 0 "" ∧
     (assign_voice_for_speaker
         (assign_voice_for_speaker (assign_voice_for_speaker [] "A" "female").1
           "B" "female").1 "C" "female").2.1 ∈ gender_voice_pools "female") :=
  ⟨⟨by decide, by decide, by decide⟩,
   (c9_voice_assignment "female" "A" "B" "C" (Or.inl rfl)
     (by decide) (by decide) (by decide)).1⟩

/-! ## TTS fallback ladder (C5) -/

theorem get_fallback_voice_cases (v : String) :
    get_fallback_voice v = "Marlene" ∨ get_fallback_voice v = "Hans" := by
  unfold get_fallback_voice
  split_ifs <;> simp

theorem generate_speech_std_marlene_len (ok : String → String → Bool) :
    (generate_speech_std ok "Marlene").1.length = 1 := by
  rw [generate_speech_std]
  split_ifs with h1 h2 h3 <;> simp_all [get_fallback_voice]

theorem generate_speech_std_hans_len (ok : String → String → Bool) :
    (generate_speech_std ok "Hans").1.length ≤ 2 := by
  rw [generate_speech_std]
  split_ifs with h1 h2 h3 <;>
    simp_all [get_fallback_voice, generate_speech_std_marlene_len]

theorem generate_speech_std_fallback_len (ok : String → String → Bool)
    (v : String) :
    (generate_speech_std ok (get_fallback_voice v)).1.length ≤ 2 := by
  rcases get_fallback_voice_cases v with h | h <;> rw [h]
  · rw [generate_speech_std_marlene_len]
    omega
  · exact generate_speech_std_hans_len ok

theorem generate_speech_std_len (ok : String → String → Bool) (v : String) :
    (generate_speech_std ok v).1.length ≤ 3 := by
  rw [generate_speech_std]
  split_ifs with h1 h2 h3
  · simp
  · have := generate_speech_std_fallback_len ok v
    simp only [List.length_cons]
    omega
  · have := generate_speech_std_marlene_len ok
    simp only [List.length_cons]
    omega
  · simp

/-- C5 (counterexample): with a provider that fails at every voice/engine
combination, starting from `Daniel`/`generative` the code makes six
synthesize attempts in total — five fallback attempts after the initial one
(Daniel/standard, Hans/standard, Marlene/standard, Hans/standard,
Marlene/standard), not the claimed exactly three. -/
theorem c5_fallback_counterexample :
    (generate_speech (fun _ _ => false) "Daniel" "generative").1 =
      [("Daniel", "generative"), ("Daniel", "standard"), ("Hans", "standard"),
       ("Marlene", "standard"), ("Hans", "standard"), ("Marlene", "standard")] ∧
    (generate_speech (fun _ _ => false) "Daniel" "generative").1.length ≠ 4 := by
  constructor
  · simp [generate_speech, generate_speech_std, get_fallback_voice]
  · simp [generate_speech, generate_speech_std, get_fallback_voice]

/-- C5 (amended): the fallback recursion always terminates, with at most six
synthesize attempts from any starting voice/engine; when every attempt
fails, a run starting from the female default `Vicki`/`generative` makes
exactly the three documented fallback attempts after the initial one (same
voice at standard, fallback voice Marlene at standard, last-resort Marlene/
standard) and then surfaces failure by re-raising the original provider
error (`raise` — the repository defines no `SynthesisError` type); male
starting voices incur up to five fallback attempts because both ladder
levels retry the Hans→Marlene chain. -/
theorem c5_fallback_amended :
    (generate_speech (fun _ _ => false) "Vicki" "generative" =
      ([("Vicki", "generative"), ("Vicki", "standard"),
        ("Marlene", "standard"), ("Marlene", "standard")], false)) ∧
    (∀ (ok : String → String → Bool) (v e : String),
       (generate_speech ok v e).1.length ≤ 6) := by
  constructor
  · simp [generate_speech, generate_speech_std, get_fallback_voice]
  · intro ok v e
    rw [generate_speech]
    split_ifs with h1 h2 h3
    · exact le_trans (generate_speech_std_len ok v) (by omega)
    · simp
    · have hb := generate_speech_std_len ok v
      have hc := generate_speech_std_fallback_len ok v
      dsimp only
      split_ifs
      · simp only [List.length_cons]
        omega
      · simp only [List.length_cons, List.length_append]
        omega
    · have := generate_speech_std_marlene_len ok
      simp only [List.length_cons]
      omega

/-! ## Calibrated playback driver (C4) -/

theorem driverRun_clock_le {lag clock drift : ℚ} {first : Bool}
    {steps : List Step} {ts : List ℚ}
    (h : DriverRun lag clock drift first steps ts) :
    ∀ x ∈ ts, clock ≤ x := by
  induction h with
  | nil => simp
  | cons clock drift first s rest t ts h1 h2 _h3 ih =>
    intro x hx
    rcases List.mem_cons.mp hx with hx | hx
    · subst hx; exact h1
    · have := ih x hx
      linarith

theorem driverRun_chain {lag clock drift : ℚ} {first : Bool}
    {steps : List Step} {ts : List ℚ}
    (h : DriverRun lag clock drift first steps ts) :
    List.Chain' (· < ·) ts := by
  induction h with
  | nil => exact List.chain'_nil
  | cons clock drift first s rest t ts h1 h2 h3 ih =>
    rw [List.chain'_cons']
    refine ⟨?_, ih⟩
    intro y hy
    have hmem : y ∈ ts := List.mem_of_mem_head? hy
    have := driverRun_clock_le h3 y hmem
    linarith

/-- C4 (counterexample): the wait loop exits as soon as the clock reaches
`startTime − lag − drift − sync_tolerance`, so there is a valid execution of
the step loop that invokes a step's renderer call at 0.98s — strictly
earlier than the step's 1.0s `start_time` — even with zero measured lag and
zero drift. -/
theorem c4_early_invocation_counterexample :
    DriverRun 0 0 0 true [withStart (mkIntroStep 1) 1] [49/50] ∧
    (49/50 : ℚ) < (withStart (mkIntroStep 1) 1).start_time := by
  constructor
  · refine DriverRun.cons 0 0 true _ [] (49/50) [] (by norm_num) ?_
      (DriverRun.nil _ _ _)
    show compensated_target 0 0 (withStart (mkIntroStep 1) 1).start_time -
        sync_tolerance ≤ 49/50
    norm_num [compensated_target, sync_tolerance, withStart, mkIntroStep]
  · norm_num [withStart, mkIntroStep]

/-- C4 (amended): renderer invocations happen strictly in Timeline order
(their times strictly increase along the sequence: each step is invoked
before step N+1), and each step's invocation happens no earlier than
`startTime − baselineLag − cumulativeDrift − sync_tolerance` — the
calibration-compensated threshold, which can precede `startTime` itself by
up to `lag + drift + 0.02s`. -/
theorem c4_driver_ordering_amended (lag clock drift : ℚ) (first : Bool)
    (s : Step) (rest : List Step) (t : ℚ) (ts : List ℚ)
    (h : DriverRun lag clock drift first (s :: rest) (t :: ts)) :
    s.start_time - lag - drift - sync_tolerance ≤ t ∧
    List.Chain' (· < ·) (t :: ts) := by
  refine ⟨?_, driverRun_chain h⟩
  cases h with
  | cons _ _ _ _ _ _ _ h1 h2 h3 =>
    rw [compensated_target] at h2
    linarith

/-- C4 witness: a concrete single-step run at invocation time 1 (the step's
own start time), satisfying the run hypothesis. -/
theorem c4_driver_ordering_witness :
    DriverRun 0 0 0 true [withStart (mkIntroStep 1) 1] [1] ∧
    ((withStart (mkIntroStep 1) 1).start_time - 0 - 0 - sync_tolerance ≤ 1 ∧
      List.Chain' (· < ·) [(1 : ℚ)]) := by
  have hrun : DriverRun 0 0 0 true [withStart (mkIntroStep 1) 1] [1] := by
    refine DriverRun.cons 0 0 true _ [] 1 [] (by norm_num) ?_ (DriverRun.nil _ _ _)
    show compensated_target 0 0 (withStart (mkIntroStep 1) 1).start_time -
        sync_tolerance ≤ 1
    norm_num [compensated_target, sync_tolerance, withStart, mkIntroStep]
  exact ⟨hrun, c4_driver_ordering_amended 0 0 0 true _ [] 1 [] hrun⟩

/-! ## Post-session duration validation (C7) -/

/-- C7 (counterexample): with a recorded track of 5s against an expected
duration of 0s, validation reports invalid, the computed factor is
`expected/actual = 0` — and because a 0.0 float is falsy in
`if not is_valid and speed_factor:`, no speed-correction transform is
applied even though the recording is invalid and its measured duration is
positive. -/
theorem c7_zero_expected_counterexample :
    validate_recording_timing (some 5) 0 (1/2) = (false, some 5, some 0) ∧
    (0 : ℚ) < 5 ∧
    post_session_correction (some 5) 0 = (false, some 5, false) := by
  refine ⟨?_, by norm_num, ?_⟩
  · simp [validate_recording_timing]
    norm_num
  · simp [post_session_correction, validate_recording_timing]

/-- C7 (amended): validation reports valid exactly when
`|actual − expected| ≤ tolerance`; when invalid at the driver's 0.5s
tolerance, with a positive measured duration *and a nonzero planned
duration* (so that the factor is truthy), the factor equals
`expected / actual` and the duration-only, audio-free speed-correction
transform is applied to the visual track before proceeding. -/
theorem c7_validation_amended (a expected tolerance : ℚ) :
    ((validate_recording_timing (some a) expected tolerance).1 = true ↔
      |a - expected| ≤ tolerance) ∧
    (¬ |a - expected| ≤ 1/2 → 0 < a → expected ≠ 0 →
      (validate_recording_timing (some a) expected (1/2)).2.2 =
        some (expected / a) ∧
      (post_session_correction (some a) expected).1 = true ∧
      (post_session_correction (some a) expected).2.2 = true) := by
  constructor
  · simp [validate_recording_timing]
  · intro hinv ha he
    have hfne : expected / a ≠ 0 := div_ne_zero he (ne_of_gt ha)
    push_neg at hinv
    rw [one_div] at hinv
    refine ⟨by simp [validate_recording_timing, ha], ?_, ?_⟩ <;>
      simp [post_session_correction, validate_recording_timing, ha, hinv, hfne]

/-- C7 witness: a 5s recording against a 10s plan at the 0.5s tolerance —
invalid, positive measured duration, nonzero plan. -/
theorem c7_validation_witness :
    (¬ |(5 : ℚ) - 10| ≤ 1/2 ∧ (0 : ℚ) < 5 ∧ (10 : ℚ) ≠ 0) ∧
    ((validate_recording_timing (some 5) 10 (1/2)).1 = true ↔
      |(5 : ℚ) - 10| ≤ 1/2) ∧
    ((validate_recording_timing (some 5) 10 (1/2)).2.2 = some (10 / 5) ∧
      (post_session_correction (some 5) 10).1 = true ∧
      (post_session_correction (some 5) 10).2.2 = true) :=
  ⟨⟨by norm_num, by norm_num, by norm_num⟩,
   (c7_validation_amended 5 10 (1/2)).1,
   (c7_validation_amended 5 10 (1/2)).2 (by norm_num) (by norm_num) (by norm_num)⟩

/-! ## Master-audio assembly fidelity (C3) -/

theorem isMsQ_nonneg {x : ℚ} (h : isMsQ x) : 0 ≤ x := by
  obtain ⟨n, rfl⟩ := h
  positivity

theorem msTrunc_isMs {x : ℚ} (h : isMsQ x) : (msTrunc x : ℚ) = 1000 * x := by
  obtain ⟨n, rfl⟩ := h
  rw [msTrunc]
  rw [div_mul_cancel₀ (n : ℚ) (show (1000 : ℚ) ≠ 0 by norm_num)]
  rw [Int.floor_natCast]
  rw [Int.toNat_natCast]
  field_simp

theorem contributes_intro (probe : String → Option ℕ) (d t : ℚ) (m : ℕ)
    (hp : probe "intro.mp3" = some m) (hm : (m : ℚ) = 1000 * d) :
    stepContributes probe (withStart (mkIntroStep d) t) := by
  intro x hx
  have hd : (m : ℚ) / 1000 = d := by rw [hm]; ring
  simp [assembleStep, padToStart, addBufferSilence, appendStepAudio,
    resolveAudioFile, withStart, mkIntroStep, stepTotalDuration, hx, hp, hm, hd]

theorem contributes_instructions (probe : String → Option ℕ) (cfg : TimingConfig)
    (d t : ℚ) (m : ℕ)
    (hp : probe "instructions.mp3" = some m) (hm : (m : ℚ) = 1000 * d)
    (hb : isMsQ cfg.instructions_buffer) :
    stepContributes probe (withStart (mkInstructionsStep cfg d) t) := by
  intro x hx
  have hd : (m : ℚ) / 1000 = d := by rw [hm]; ring
  have hms := msTrunc_isMs hb
  by_cases h0 : 0 < cfg.instructions_buffer
  · simp [assembleStep, padToStart, addBufferSilence, appendStepAudio,
      resolveAudioFile, withStart, mkInstructionsStep, stepTotalDuration,
      hx, hp, hd, h0, hms]
    constructor <;> linarith
  · have hz : cfg.instructions_buffer = 0 :=
      le_antisymm (not_lt.mp h0) (isMsQ_nonneg hb)
    simp [assembleStep, padToStart, addBufferSilence, appendStepAudio,
      resolveAudioFile, withStart, mkInstructionsStep, stepTotalDuration,
      hx, hp, hd, hz]
    linarith

theorem contributes_transition (probe : String → Option ℕ) (cfg : TimingConfig)
    (i txt : String) (d t : ℚ) (m : ℕ)
    (hp : probe "transition_unknown.mp3" = some m) (hm : (m : ℚ) = 1000 * d)
    (hmin : cfg.transition_duration ≤ d) :
    stepContributes probe (withStart (mkTransitionStep cfg i txt d) t) := by
  intro x hx
  have hd : (m : ℚ) / 1000 = d := by rw [hm]; ring
  have hmax : max d cfg.transition_duration = d := max_eq_left hmin
  simp [assembleStep, padToStart, addBufferSilence, appendStepAudio,
    resolveAudioFile, withStart, mkTransitionStep, stepTotalDuration,
    hx, hp, hd, hm, hmax]

theorem contributes_combined (probe : String → Option ℕ) (cfg : TimingConfig)
    (n : ℕ) (d t : ℚ) (m : ℕ) (hpc : cfg.text_play_count = 2)
    (hp : probe ("task_" ++ toString n ++ ".mp3") = some m)
    (hm : (m : ℚ) = 1000 * d)
    (hb : isMsQ cfg.task_start_buffer) (hpa : isMsQ cfg.pause_between_plays)
    (hth : isMsQ cfg.thinking_time) :
    stepContributes probe (withStart (mkCombinedTaskStep cfg n d) t) := by
  intro x hx
  have hd : (m : ℚ) / 1000 = d := by rw [hm]; ring
  have hmsb := msTrunc_isMs hb
  have hmsp := msTrunc_isMs hpa
  have hmst := msTrunc_isMs hth
  by_cases h0 : 0 < cfg.task_start_buffer
  · simp [assembleStep, padToStart, addBufferSilence, appendStepAudio,
      resolveAudioFile, withStart, mkCombinedTaskStep, stepTotalDuration,
      hx, hp, hd, h0, hpc]
    push_cast [hmsb, hmsp, hmst]
    constructor <;> linarith
  · have hz : cfg.task_start_buffer = 0 :=
      le_antisymm (not_lt.mp h0) (isMsQ_nonneg hb)
    simp [assembleStep, padToStart, addBufferSilence, appendStepAudio,
      resolveAudioFile, withStart, mkCombinedTaskStep, stepTotalDuration,
      hx, hp, hd, hz, hpc]
    push_cast [hmsp, hmst]
    constructor <;> linarith

theorem contributes_answer (probe : String → Option ℕ) (cfg : TimingConfig)
    (n : ℕ) (d t : ℚ) (m : ℕ)
    (hp : probe ("answer_" ++ toString n ++ ".mp3") = some m)
    (hm : (m : ℚ) = 1000 * d) (hpa : isMsQ cfg.answer_reveal_pause) :
    stepContributes probe (withStart (mkAnswerRevealStep cfg n d) t) := by
  intro x hx
  have hd : (m : ℚ) / 1000 = d := by rw [hm]; ring
  have hms := msTrunc_isMs hpa
  by_cases h0 : 0 < cfg.answer_reveal_pause
  · simp [assembleStep, padToStart, addBufferSilence, appendStepAudio,
      resolveAudioFile, withStart, mkAnswerRevealStep, stepTotalDuration,
      hx, hp, hd, h0]
    push_cast [hms]
    constructor <;> linarith
  · have hz : cfg.answer_reveal_pause = 0 :=
      le_antisymm (not_lt.mp h0) (isMsQ_nonneg hpa)
    simp [assembleStep, padToStart, addBufferSilence, appendStepAudio,
      resolveAudioFile, withStart, mkAnswerRevealStep, stepTotalDuration,
      hx, hp, hd, hz]
    linarith

theorem contributes_outro (probe : String → Option ℕ) (d t : ℚ) (m : ℕ)
    (hp : probe "outro.mp3" = some m) (hm : (m : ℚ) = 1000 * d) :
    stepContributes probe (withStart (mkOutroStep d) t) := by
  intro x hx
  have hd : (m : ℚ) / 1000 = d := by rw [hm]; ring
  simp [assembleStep, padToStart, addBufferSilence, appendStepAudio,
    resolveAudioFile, withStart, mkOutroStep, stepTotalDuration, hx, hp, hd]
  linarith

theorem handle_section_parts (cfg : TimingConfig) (st : BuildState)
    (sec : SectionData) :
    (handle_section cfg st sec).audio_sequence =
      (match sectionStep cfg sec with
       | none => st.audio_sequence
       | some s₀ => st.audio_sequence ++ [withStart s₀ st.total_duration]) := by
  cases sec with
  | combined_task n spk d =>
    cases spk with
    | none => rfl
    | some p => cases p; rfl
  | _ => rfl

theorem mem_generate_steps (cfg : TimingConfig) (secs : List SectionData) :
    ∀ (st : BuildState) (s : Step),
      s ∈ (secs.foldl (handle_section cfg) st).audio_sequence →
      s ∈ st.audio_sequence ∨
        ∃ sec ∈ secs, ∃ s₀, sectionStep cfg sec = some s₀ ∧
          ∃ t, s = withStart s₀ t := by
  induction secs with
  | nil =>
    intro st s h
    exact Or.inl h
  | cons sec rest ih =>
    intro st s h
    rcases ih _ s h with h' | ⟨sec', hmem, s₀, hs₀, t, ht⟩
    · rw [handle_section_parts] at h'
      rcases hss : sectionStep cfg sec with _ | s₀
      · rw [hss] at h'
        exact Or.inl h'
      · rw [hss] at h'
        rcases List.mem_append.mp h' with h'' | h''
        · exact Or.inl h''
        · refine Or.inr ⟨sec, List.mem_cons_self _ _, s₀, hss, st.total_duration, ?_⟩
          simpa using h''
    · exact Or.inr ⟨sec', List.mem_cons_of_mem _ hmem, s₀, hs₀, t, ht⟩

theorem built_contributes (cfg : TimingConfig) (probe : String → Option ℕ)
    (secs : List SectionData) (prior : BuildState)
    (hpc : cfg.text_play_count = 2)
    (hbuf : isMsQ cfg.task_start_buffer) (hpau : isMsQ cfg.pause_between_plays)
    (hth : isMsQ cfg.thinking_time) (hins : isMsQ cfg.instructions_buffer)
    (hans : isMsQ cfg.answer_reveal_pause)
    (hsec : ∀ sec ∈ secs, sectionProbeOK cfg probe sec) :
    ∀ s ∈ (generate_all_audio cfg secs prior).audio_sequence,
      stepContributes probe s := by
  intro s hs
  rcases mem_generate_steps cfg secs {} s hs with h | ⟨sec, hmem, s₀, hs₀, t, rfl⟩
  · simp [BuildState.audio_sequence] at h
  · have hok := hsec sec hmem
    cases sec with
    | intro d =>
      obtain ⟨m, hp, hm⟩ := hok
      cases hs₀
      exact contributes_intro probe d t m hp hm
    | instructions d =>
      obtain ⟨m, hp, hm⟩ := hok
      cases hs₀
      exact contributes_instructions probe cfg d t m hp hm hins
    | transition i txt d =>
      obtain ⟨⟨m, hp, hm⟩, hmin⟩ := hok
      cases hs₀
      exact contributes_transition probe cfg i txt d t m hp hm hmin
    | combined_task n spk d =>
      obtain ⟨m, hp, hm⟩ := hok
      cases hs₀
      exact contributes_combined probe cfg n d t m hpc hp hm hbuf hpau hth
    | answer_reveal n d =>
      obtain ⟨m, hp, hm⟩ := hok
      cases hs₀
      exact contributes_answer probe cfg n d t m hp hm hans
    | outro d =>
      obtain ⟨m, hp, hm⟩ := hok
      cases hs₀
      exact contributes_outro probe d t m hp hm
    | unknown => simp [sectionStep] at hs₀

theorem assemble_foldl (probe : String → Option ℕ) (seq : List Step) :
    ∀ st : AsmState,
      (∀ s ∈ seq, stepContributes probe s) →
      List.Chain' stepFollows seq →
      (∀ x ∈ seq.head?, x.start_time = st.cursor) →
      ((seq.foldl (assembleStep probe) st).master_ms : ℚ) =
        (st.master_ms : ℚ) + 1000 * (seq.map stepTotalDuration).sum ∧
      (seq.foldl (assembleStep probe) st).cursor =
        st.cursor + (seq.map stepTotalDuration).sum := by
  induction seq with
  | nil =>
    intro st _ _ _
    simp
  | cons s rest ih =>
    intro st hall hchain hhead
    have hx : st.cursor = s.start_time := (hhead s rfl).symm
    have hc := hall s (List.mem_cons_self s rest) st hx
    have hch := List.chain'_cons'.mp hchain
    have hhead' : ∀ x ∈ rest.head?, x.start_time = (assembleStep probe st s).cursor := by
      intro y hy
      have := hch.1 y hy
      rw [stepFollows] at this
      rw [hc.2, hx, this]
    have hrest := ih (assembleStep probe st s)
      (fun s' hs' => hall s' (List.mem_cons_of_mem _ hs')) hch.2 hhead'
    rw [List.foldl_cons]
    constructor
    · rw [hrest.1, hc.1]
      simp only [List.map_cons, List.sum_cons]
      ring
    · rw [hrest.2, hc.2]
      simp only [List.map_cons, List.sum_cons]
      ring

/-- C3 (amended): for a generator-built timeline in which every
narration-task step has repeat count 2 (the only case the assembler expands
into repetitions), every transition clip reaches the configured minimum
duration, all configured buffer/pause durations are whole milliseconds, and
every step's resolved audio file probes to exactly its recorded measured
duration, the assembled master track's length equals
`Timeline.total_duration` exactly — in particular within the 50ms
tolerance. -/
theorem c3_assembly_fidelity_amended (cfg : TimingConfig)
    (secs : List SectionData) (probe : String → Option ℕ) (prior : BuildState)
    (hpc : cfg.text_play_count = 2)
    (hbuf : isMsQ cfg.task_start_buffer) (hpau : isMsQ cfg.pause_between_plays)
    (hth : isMsQ cfg.thinking_time) (hins : isMsQ cfg.instructions_buffer)
    (hans : isMsQ cfg.answer_reveal_pause)
    (hsec : ∀ sec ∈ secs, sectionProbeOK cfg probe sec) :
    master_seconds probe (generate_all_audio cfg secs prior).audio_sequence =
      (generate_all_audio cfg secs prior).total_duration ∧
    |master_seconds probe (generate_all_audio cfg secs prior).audio_sequence -
        (generate_all_audio cfg secs prior).total_duration| ≤ 1/20 := by
  have hinv := generate_all_audio_inv cfg secs prior
  have hcontrib := built_contributes cfg probe secs prior hpc hbuf hpau hth hins hans hsec
  have h := assemble_foldl probe (generate_all_audio cfg secs prior).audio_sequence {}
    hcontrib hinv.chain (by intro x hx; simpa using hinv.head0 x hx)
  have hmain : master_seconds probe (generate_all_audio cfg secs prior).audio_sequence =
      (generate_all_audio cfg secs prior).total_duration := by
    rw [master_seconds, create_master_audio]
    rw [h.1, hinv.total_eq]
    push_cast
    ring
  exact ⟨hmain, by rw [hmain]; simp⟩

theorem sample_sections_probeOK :
    ∀ sec ∈ sampleSections, sectionProbeOK {} sampleProbe sec := by
  intro sec hs
  fin_cases hs
  · exact ⟨3000, rfl, by norm_num⟩
  · exact ⟨4000, rfl, by norm_num⟩
  · exact ⟨⟨3000, rfl, by norm_num⟩, by show (5/2 : ℚ) ≤ 3; norm_num⟩
  · exact ⟨4000, rfl, by norm_num⟩
  · exact ⟨2000, rfl, by norm_num⟩
  · exact ⟨3000, rfl, by norm_num⟩

/-- C3 witness: the six-section sample timeline under the default
configuration (repeat count 2), with every file probing to its measured
duration. -/
theorem c3_assembly_fidelity_witness :
    (TimingConfig.text_play_count {} = 2 ∧
     isMsQ (TimingConfig.task_start_buffer {}) ∧
     isMsQ (TimingConfig.pause_between_plays {}) ∧
     isMsQ (TimingConfig.thinking_time {}) ∧
     isMsQ (TimingConfig.instructions_buffer {}) ∧
     isMsQ (TimingConfig.answer_reveal_pause {}) ∧
     (∀ sec ∈ sampleSections, sectionProbeOK {} sampleProbe sec)) ∧
    (master_seconds sampleProbe
        (generate_all_audio {} sampleSections {}).audio_sequence =
      (generate_all_audio {} sampleSections {}).total_duration ∧
     |master_seconds sampleProbe
         (generate_all_audio {} sampleSections {}).audio_sequence -
        (generate_all_audio {} sampleSections {}).total_duration| ≤ 1/20) :=
  ⟨⟨rfl, ⟨2000, by norm_num⟩, ⟨3000, by norm_num⟩, ⟨5000, by norm_num⟩,
    ⟨2000, by norm_num⟩, ⟨2000, by norm_num⟩, sample_sections_probeOK⟩,
   c3_assembly_fidelity_amended {} sampleSections sampleProbe {} rfl
     ⟨2000, by norm_num⟩ ⟨3000, by norm_num⟩ ⟨5000, by norm_num⟩
     ⟨2000, by norm_num⟩ ⟨2000, by norm_num⟩ sample_sections_probeOK⟩

theorem oneTask_total_eval :
    (generate_all_audio oneTaskConfig
        [SectionData.combined_task 1 none 3] {}).total_duration = 13 := by
  simp [generate_all_audio, handle_section, add_to_sequence, withStart,
    mkCombinedTaskStep, stepTotalDuration, oneTaskConfig]
  norm_num

theorem oneTask_master_eval :
    master_seconds oneTaskProbe
      (generate_all_audio oneTaskConfig
        [SectionData.combined_task 1 none 3] {}).audio_sequence = 5 := by
  have hres : ("task_" ++ toString (1:ℕ) ++ ".mp3") = "task_1.mp3" := rfl
  have hms : ((msTrunc (2:ℚ) : ℕ) : ℚ) = 2000 := by
    rw [msTrunc_isMs ⟨2000, by norm_num⟩]
    norm_num
  simp [master_seconds, create_master_audio, assembleStep, padToStart,
    addBufferSilence, appendStepAudio, resolveAudioFile, oneTaskProbe,
    generate_all_audio, handle_section, add_to_sequence, withStart,
    mkCombinedTaskStep, stepTotalDuration, oneTaskConfig, hres, hms]
  norm_num

/-- C3 (counterexample): a timeline whose single narration-task step has
repeat count 1 — its audio file probing to exactly the recorded 3s measured
duration — plans 13s (2 buffer + 3 + 3 pause + 5 thinking) but assembles to
only 5s, because the assembler plays the clip once with no pause/thinking
silence whenever the repeat count is not 2; the 8s shortfall far exceeds any
sub-100ms tolerance. -/
theorem c3_assembly_fidelity_counterexample :
    sectionProbeOK oneTaskConfig oneTaskProbe (SectionData.combined_task 1 none 3) ∧
    (generate_all_audio oneTaskConfig
        [SectionData.combined_task 1 none 3] {}).total_duration = 13 ∧
    master_seconds oneTaskProbe
      (generate_all_audio oneTaskConfig
        [SectionData.combined_task 1 none 3] {}).audio_sequence = 5 ∧
    ¬ (|(5 : ℚ) - 13| ≤ 1/10) :=
  ⟨⟨3000, rfl, by norm_num⟩, oneTask_total_eval, oneTask_master_eval, by norm_num⟩

/-! ## Duration-mismatch reconciliation and final mux (C8) -/

/-- C8: an assembled-audio duration that mismatches the timeline's planned
total beyond the 0.5s tolerance is non-fatal — the assembler logs the
discrepancy (flag `true`) and still returns the actual assembled duration,
and the final mux is invoked with that actual duration as the hard cap, so
the published output's length equals the audio track's actual duration, not
the planned one. -/
theorem c8_actual_duration_wins (probe : String → Option ℕ) (seq : List Step)
    (expected videoDur : ℚ)
    (h : 1/2 < |master_seconds probe seq - expected|) :
    sync_audio_video_run probe seq expected videoDur =
      (master_seconds probe seq, master_seconds probe seq, true) ∧
    master_seconds probe seq ≠ expected := by
  have h' := h
  rw [one_div] at h'
  constructor
  · simp [sync_audio_video_run, create_master_result, encode, h']
  · intro he
    rw [he] at h
    simp at h
    linarith

/-- C8 witness: the repeat-count-1 timeline assembles to 5s against a 13s
plan (an 8s mismatch, beyond tolerance); the run returns 5s and muxes to
exactly 5s. -/
theorem c8_actual_duration_wins_witness :
    ((1 : ℚ)/2 < |master_seconds oneTaskProbe
        (generate_all_audio oneTaskConfig
          [SectionData.combined_task 1 none 3] {}).audio_sequence - 13|) ∧
    (sync_audio_video_run oneTaskProbe
        (generate_all_audio oneTaskConfig
          [SectionData.combined_task 1 none 3] {}).audio_sequence 13 20 =
      (master_seconds oneTaskProbe
          (generate_all_audio oneTaskConfig
            [SectionData.combined_task 1 none 3] {}).audio_sequence,
       master_seconds oneTaskProbe
          (generate_all_audio oneTaskConfig
            [SectionData.combined_task 1 none 3] {}).audio_sequence, true) ∧
     master_seconds oneTaskProbe
        (generate_all_audio oneTaskConfig
          [SectionData.combined_task 1 none 3] {}).audio_sequence ≠ 13) := by
  have hgap : (1 : ℚ)/2 < |master_seconds oneTaskProbe
      (generate_all_audio oneTaskConfig
        [SectionData.combined_task 1 none 3] {}).audio_sequence - 13| := by
    rw [oneTask_master_eval]
    norm_num
  exact ⟨hgap, c8_actual_duration_wins oneTaskProbe _ 13 20 hgap⟩

/-! ## Missing-file skipping and transition resolution (C10) -/

theorem transition_name_inj {i : String}
    (h : "transition_" ++ i ++ ".mp3" = "transition_unknown.mp3") :
    i = "unknown" := by
  have h' : ("transition_" ++ i ++ ".mp3").data =
      ("transition_" ++ "unknown" ++ ".mp3").data := by
    rw [h]
    rfl
  simp only [String.data_append] at h'
  have h2 := List.append_cancel_right h'
  have h3 := List.append_cancel_left h2
  exact String.ext h3

theorem task_name_ne_transition_unknown (x : String) :
    ("task_" ++ x ++ ".mp3") ≠ "transition_unknown.mp3" := by
  intro h
  have h' : ("task_" ++ x ++ ".mp3").data = "transition_unknown.mp3".data := by
    rw [h]
  rw [String.data_append, String.data_append] at h'
  have hd : "task_".data = ['t','a','s','k','_'] := rfl
  have he : "transition_unknown.mp3".data =
      ['t','r','a','n','s','i','t','i','o','n','_',
       'u','n','k','n','o','w','n','.','m','p','3'] := rfl
  rw [hd, he] at h'
  simp at h'

theorem answer_name_ne_transition_unknown (x : String) :
    ("answer_" ++ x ++ ".mp3") ≠ "transition_unknown.mp3" := by
  intro h
  have h' : ("answer_" ++ x ++ ".mp3").data = "transition_unknown.mp3".data := by
    rw [h]
  rw [String.data_append, String.data_append] at h'
  have hd : "answer_".data = ['a','n','s','w','e','r','_'] := rfl
  have he : "transition_unknown.mp3".data =
      ['t','r','a','n','s','i','t','i','o','n','_',
       'u','n','k','n','o','w','n','.','m','p','3'] := rfl
  rw [hd, he] at h'
  simp at h'

theorem written_no_unknown (secs : List SectionData)
    (h : ∀ i txt d, SectionData.transition i txt d ∈ secs → i ≠ "unknown") :
    "transition_unknown.mp3" ∉ secs.filterMap writtenFile := by
  intro hmem
  rcases List.mem_filterMap.mp hmem with ⟨sec, hsec, hw⟩
  cases sec with
  | intro d => simp [writtenFile] at hw
  | instructions d => simp [writtenFile] at hw
  | transition i txt d =>
    simp only [writtenFile, Option.some.injEq] at hw
    exact h i txt d hsec (transition_name_inj hw)
  | combined_task n spk d =>
    simp only [writtenFile, Option.some.injEq] at hw
    exact task_name_ne_transition_unknown (toString n) hw
  | answer_reveal n d =>
    simp only [writtenFile, Option.some.injEq] at hw
    exact answer_name_ne_transition_unknown (toString n) hw
  | outro d => simp [writtenFile] at hw
  | unknown => simp [writtenFile] at hw

theorem built_transition_resolves (cfg : TimingConfig) (secs : List SectionData)
    (prior : BuildState) (s : Step)
    (hs : s ∈ (generate_all_audio cfg secs prior).audio_sequence)
    (ht : s.type = StepType.transition) :
    resolveAudioFile s = "transition_unknown.mp3" := by
  rcases mem_generate_steps cfg secs {} s hs with h | ⟨sec, _, s₀, hs₀, t, rfl⟩
  · simp [BuildState.audio_sequence] at h
  · cases sec with
    | intro d =>
      cases hs₀
      simp [withStart, mkIntroStep] at ht
    | instructions d =>
      cases hs₀
      simp [withStart, mkInstructionsStep] at ht
    | transition i txt d =>
      cases hs₀
      rfl
    | combined_task n spk d =>
      cases hs₀
      simp [withStart, mkCombinedTaskStep] at ht
    | answer_reveal n d =>
      cases hs₀
      simp [withStart, mkAnswerRevealStep] at ht
    | outro d =>
      cases hs₀
      simp [withStart, mkOutroStep] at ht
    | unknown => simp [sectionStep] at hs₀

/-- C10: (a) transition steps emitted by the generator carry no `id` key;
(b) consequently the assembler resolves every transition step of a built
timeline to `transition_unknown.mp3`; (c) the generator never writes that
file name (its transition files are named by section id, so as long as no
section's id is literally `"unknown"`, the looked-up file does not exist);
(d) a step whose resolved file is absent is skipped — only the start-padding
and task-buffer silence are added, no audio is appended, no exception is
raised, and assembly continues with the remaining steps. -/
theorem c10_transition_audio_omitted :
    (∀ (cfg : TimingConfig) (i txt : String) (d : ℚ),
       (mkTransitionStep cfg i txt d).id = none) ∧
    (∀ (cfg : TimingConfig) (secs : List SectionData) (prior : BuildState)
       (s : Step),
       s ∈ (generate_all_audio cfg secs prior).audio_sequence →
       s.type = StepType.transition →
       resolveAudioFile s = "transition_unknown.mp3") ∧
    (∀ secs : List SectionData,
       (∀ i txt d, SectionData.transition i txt d ∈ secs → i ≠ "unknown") →
       "transition_unknown.mp3" ∉ secs.filterMap writtenFile) ∧
    (∀ (probe : String → Option ℕ) (st : AsmState) (s : Step),
       probe (resolveAudioFile s) = none →
       assembleStep probe st s = addBufferSilence (padToStart st s) s) ∧
    (∀ (probe : String → Option ℕ) (st : AsmState) (s : Step) (rest : List Step),
       (s :: rest).foldl (assembleStep probe) st =
         rest.foldl (assembleStep probe) (assembleStep probe st s)) := by
  refine ⟨fun _ _ _ _ => rfl, built_transition_resolves, written_no_unknown,
    ?_, fun _ _ _ _ => rfl⟩
  intro probe st s hp
  simp [assembleStep, hp]

/-- C10 witness: a one-transition timeline (section id `"t1"`): the built
step has no id, resolves to `transition_unknown.mp3`, which the generator
did not write, and assembling it against a filesystem without that file
appends no audio. -/
theorem c10_transition_audio_omitted_witness :
    ((withStart (mkTransitionStep {} "t1" "Weiter" 3) 0) ∈
       (generate_all_audio {} [SectionData.transition "t1" "Weiter" 3] {}).audio_sequence ∧
     (withStart (mkTransitionStep {} "t1" "Weiter" 3) 0).type = StepType.transition ∧
     (∀ i txt d, SectionData.transition i txt d ∈
         [SectionData.transition "t1" "Weiter" 3] → i ≠ "unknown") ∧
     oneTaskProbe (resolveAudioFile
       (withStart (mkTransitionStep {} "t1" "Weiter" 3) 0)) = none) ∧
    (resolveAudioFile (withStart (mkTransitionStep {} "t1" "Weiter" 3) 0) =
       "transition_unknown.mp3" ∧
     "transition_unknown.mp3" ∉
       [SectionData.transition "t1" "Weiter" 3].filterMap writtenFile ∧
     assembleStep oneTaskProbe {} (withStart (mkTransitionStep {} "t1" "Weiter" 3) 0) =
       addBufferSilence (padToStart {} (withStart (mkTransitionStep {} "t1" "Weiter" 3) 0))
         (withStart (mkTransitionStep {} "t1" "Weiter" 3) 0)) := by
  have hmem : (withStart (mkTransitionStep {} "t1" "Weiter" 3) 0) ∈
      (generate_all_audio {} [SectionData.transition "t1" "Weiter" 3] {}).audio_sequence := by
    simp [generate_all_audio, handle_section, add_to_sequence]
  have hid : ∀ i txt d, SectionData.transition i txt d ∈
      [SectionData.transition "t1" "Weiter" 3] → i ≠ "unknown" := by
    intro i txt d hm
    simp only [List.mem_singleton, SectionData.transition.injEq] at hm
    rw [hm.1]
    decide
  have hpn : oneTaskProbe (resolveAudioFile
      (withStart (mkTransitionStep {} "t1" "Weiter" 3) 0)) = none := rfl
  exact ⟨⟨hmem, rfl, hid, hpn⟩,
    c10_transition_audio_omitted.2.1 {} [SectionData.transition "t1" "Weiter" 3] {}
      _ hmem rfl,
    c10_transition_audio_omitted.2.2.1 [SectionData.transition "t1" "Weiter" 3] hid,
    c10_transition_audio_omitted.2.2.2.1 oneTaskProbe {} _ hpn⟩

end Goethe
